import Mathlib

/-!
Verification of the dynamic relational-query endpoint of the repository
(`api/core/mixins.py`, `RelatedQueryMixin`) against its natural-language
specification.

The Python code is shallowly embedded here.  Strings are modelled as
`List Char` (named `Str`) so that every operation is a computable,
kernel-reducible structural function; the Python string operations used by
the source (`split`, `strip`, `replace`, `lower`, slicing) are re-implemented
below on `Str` with the exact semantics the source relies on.

The fixed resource-type graph of `api/core/models.py` (Brand, Category,
Product, Warehouse, Stock, Customer, Order, OrderItem, Payment) is embedded
as a static schema, reflecting exactly what Django's `_meta.get_field`
exposes for those models: every concrete forward field (in declaration
order, as `_meta.fields` lists them) plus every reverse relation created by
a `related_name`.
-/

namespace Core

/-- Strings of the embedding: plain character lists, so that every string
operation is structurally recursive and evaluable by `decide`/`rfl`. -/
abbrev Str := List Char

/-- Converts a Lean string literal to the embedding's string type. -/
def str (s : String) : Str := s.data

/-- ASCII whitespace recognised by Python's `str.strip()` (space, tab,
newline, carriage return, vertical tab, form feed). -/
def isWs (c : Char) : Bool :=
  c = ' ' || c = '\t' || c = '\n' || c = '\r' || c = '\x0b' || c = '\x0c'

/-- Python `str.strip()`: remove leading and trailing whitespace. -/
def strTrim (s : Str) : Str :=
  ((s.dropWhile isWs).reverse.dropWhile isWs).reverse

/-- ASCII lowercasing of one character, as done by Python `str.lower()` on
the ASCII inputs this endpoint receives. -/
def lowerChar (c : Char) : Char :=
  if 'A' ≤ c ∧ c ≤ 'Z' then Char.ofNat (c.toNat + 32) else c

/-- Python `str.lower()` (ASCII fragment). -/
def strLower (s : Str) : Str := s.map lowerChar

/-- Helper of `splitOnChar`, accumulating the current piece in reverse. -/
def splitOnCharGo (sep : Char) : Str → Str → List Str
  | [], acc => [acc.reverse]
  | c :: rest, acc =>
    if c = sep then acc.reverse :: splitOnCharGo sep rest []
    else splitOnCharGo sep rest (c :: acc)

/-- Python `s.split(sep)` for a one-character separator: keeps empty pieces,
e.g. `"a,,b".split(",") == ["a", "", "b"]`. -/
def splitOnChar (sep : Char) (s : Str) : List Str := splitOnCharGo sep s []

/-- Python `s.split("__")`: split on non-overlapping occurrences of a double
underscore, scanning left to right. -/
def splitDunder : Str → List Str
  | [] => [[]]
  | '_' :: '_' :: rest =>
    [] :: splitDunder rest
  | c :: rest =>
    match splitDunder rest with
    | [] => [[c]]
    | piece :: pieces => (c :: piece) :: pieces

/-- Python `s.replace(".", "__")`. -/
def replaceDots : Str → Str
  | [] => []
  | '.' :: rest => '_' :: '_' :: replaceDots rest
  | c :: rest => c :: replaceDots rest

/-- Python `s.replace("__", ".")` (left-to-right, non-overlapping). -/
def dunderToDot : Str → Str
  | [] => []
  | '_' :: '_' :: rest => '.' :: dunderToDot rest
  | c :: rest => c :: dunderToDot rest

/-- Python `"__".join(pieces)`. -/
def joinDunder : List Str → Str
  | [] => []
  | [p] => p
  | p :: ps => p ++ '_' :: '_' :: joinDunder ps

/-- The nine resource types declared in `api/core/models.py`. -/
inductive ModelName where
  | brand | category | product | warehouse | stock | customer | order | orderitem | payment
deriving DecidableEq, Repr

/-- Django's `_meta.model_name` (lowercased class name). -/
def modelName : ModelName → Str
  | .brand => str "brand"
  | .category => str "category"
  | .product => str "product"
  | .warehouse => str "warehouse"
  | .stock => str "stock"
  | .customer => str "customer"
  | .order => str "order"
  | .orderitem => str "orderitem"
  | .payment => str "payment"

/-- Semantic type of a concrete field, determining its `to_python` parser.
`char` also covers `EmailField`, whose `to_python` is inherited from
`CharField`. -/
inductive FType where
  | uuid | char | boolean | int | decimal | datetime
deriving DecidableEq, Repr

/-- A field as exposed by Django's `_meta.get_field` on the repository's
models: concrete forward fields (scalar columns plus `ForeignKey` /
`OneToOneField`) and reverse relations created by `related_name`.

* `oneToMany` marks a reverse `ForeignKey` (`ManyToOneRel`), `manyToMany`
  a many-to-many relation (none exist in this repository), matching the
  attributes tested by `_build_join_spec`.
* `targetType` is the semantic type of `field.target_field` (the referenced
  primary key) for forward `ForeignKey`/`OneToOneField`, used by
  `_coerce_filter_value`.
* `concrete` marks membership in `_meta.fields` (the default serialization
  field list of `_serialize_instance`).
* `accessor` models the `.field` attribute of a reverse relation: the
  (model, name) of the forward foreign key it mirrors, used by
  `_resolve_lookup`'s `getattr(candidate, "field", candidate)`. -/
structure Field where
  name : Str
  isRelation : Bool := false
  oneToMany : Bool := false
  manyToMany : Bool := false
  oneToOne : Bool := false
  manyToOne : Bool := false
  relatedModel : Option ModelName := none
  targetType : Option FType := none
  ftype : FType := .char
  concrete : Bool := false
  accessor : Option (ModelName × Str) := none
deriving DecidableEq, Repr

/-- Fields of `Brand`: `id`, `name`, `is_active`, `created_at`, plus the
reverse relation `products` (from `Product.brand`). -/
def brandFields : List Field :=
  [ { name := str "id", ftype := .uuid, concrete := true },
    { name := str "name", ftype := .char, concrete := true },
    { name := str "is_active", ftype := .boolean, concrete := true },
    { name := str "created_at", ftype := .datetime, concrete := true },
    { name := str "products", isRelation := true, oneToMany := true,
      relatedModel := some .product, accessor := some (.product, str "brand") } ]

/-- Fields of `Category`: same shape as `Brand`; its reverse `products`
comes from `Product.category`. -/
def categoryFields : List Field :=
  [ { name := str "id", ftype := .uuid, concrete := true },
    { name := str "name", ftype := .char, concrete := true },
    { name := str "is_active", ftype := .boolean, concrete := true },
    { name := str "created_at", ftype := .datetime, concrete := true },
    { name := str "products", isRelation := true, oneToMany := true,
      relatedModel := some .product, accessor := some (.product, str "category") } ]

/-- Fields of `Product`: scalar columns, the forward foreign keys `brand`
and `category`, and the reverse relations `stocks` and `order_items`. -/
def productFields : List Field :=
  [ { name := str "id", ftype := .uuid, concrete := true },
    { name := str "name", ftype := .char, concrete := true },
    { name := str "sku", ftype := .char, concrete := true },
    { name := str "price", ftype := .decimal, concrete := true },
    { name := str "is_active", ftype := .boolean, concrete := true },
    { name := str "created_at", ftype := .datetime, concrete := true },
    { name := str "brand", isRelation := true, manyToOne := true,
      relatedModel := some .brand, targetType := some .uuid, concrete := true },
    { name := str "category", isRelation := true, manyToOne := true,
      relatedModel := some .category, targetType := some .uuid, concrete := true },
    { name := str "stocks", isRelation := true, oneToMany := true,
      relatedModel := some .stock, accessor := some (.stock, str "product") },
    { name := str "order_items", isRelation := true, oneToMany := true,
      relatedModel := some .orderitem, accessor := some (.orderitem, str "product") } ]

/-- Fields of `Warehouse`. -/
def warehouseFields : List Field :=
  [ { name := str "id", ftype := .uuid, concrete := true },
    { name := str "name", ftype := .char, concrete := true },
    { name := str "city", ftype := .char, concrete := true },
    { name := str "created_at", ftype := .datetime, concrete := true },
    { name := str "stocks", isRelation := true, oneToMany := true,
      relatedModel := some .stock, accessor := some (.stock, str "warehouse") } ]

/-- Fields of `Stock`. -/
def stockFields : List Field :=
  [ { name := str "id", ftype := .uuid, concrete := true },
    { name := str "qty", ftype := .int, concrete := true },
    { name := str "reserved", ftype := .int, concrete := true },
    { name := str "updated_at", ftype := .datetime, concrete := true },
    { name := str "product", isRelation := true, manyToOne := true,
      relatedModel := some .product, targetType := some .uuid, concrete := true },
    { name := str "warehouse", isRelation := true, manyToOne := true,
      relatedModel := some .warehouse, targetType := some .uuid, concrete := true } ]

/-- Fields of `Customer`. -/
def customerFields : List Field :=
  [ { name := str "id", ftype := .uuid, concrete := true },
    { name := str "full_name", ftype := .char, concrete := true },
    { name := str "email", ftype := .char, concrete := true },
    { name := str "created_at", ftype := .datetime, concrete := true },
    { name := str "orders", isRelation := true, oneToMany := true,
      relatedModel := some .order, accessor := some (.order, str "customer") } ]

/-- Fields of `Order`: scalar columns, forward foreign key `customer`, the
reverse relation `items` (from `OrderItem.order`) and the reverse one-to-one
`payment` (from `Payment.order`, which is to-one, not to-many). -/
def orderFields : List Field :=
  [ { name := str "id", ftype := .uuid, concrete := true },
    { name := str "status", ftype := .char, concrete := true },
    { name := str "created_at", ftype := .datetime, concrete := true },
    { name := str "customer", isRelation := true, manyToOne := true,
      relatedModel := some .customer, targetType := some .uuid, concrete := true },
    { name := str "items", isRelation := true, oneToMany := true,
      relatedModel := some .orderitem, accessor := some (.orderitem, str "order") },
    { name := str "payment", isRelation := true, oneToOne := true,
      relatedModel := some .payment, accessor := some (.payment, str "order") } ]

/-- Fields of `OrderItem`. -/
def orderitemFields : List Field :=
  [ { name := str "id", ftype := .uuid, concrete := true },
    { name := str "qty", ftype := .int, concrete := true },
    { name := str "unit_price", ftype := .decimal, concrete := true },
    { name := str "order", isRelation := true, manyToOne := true,
      relatedModel := some .order, targetType := some .uuid, concrete := true },
    { name := str "product", isRelation := true, manyToOne := true,
      relatedModel := some .product, targetType := some .uuid, concrete := true } ]

/-- Fields of `Payment`: scalar columns and the forward `OneToOneField`
`order`. -/
def paymentFields : List Field :=
  [ { name := str "id", ftype := .uuid, concrete := true },
    { name := str "method", ftype := .char, concrete := true },
    { name := str "amount", ftype := .decimal, concrete := true },
    { name := str "status", ftype := .char, concrete := true },
    { name := str "created_at", ftype := .datetime, concrete := true },
    { name := str "order", isRelation := true, oneToOne := true,
      relatedModel := some .order, targetType := some .uuid, concrete := true } ]

/-- All fields reachable through `_meta.get_field` on a model. -/
def fieldsOf : ModelName → List Field
  | .brand => brandFields
  | .category => categoryFields
  | .product => productFields
  | .warehouse => warehouseFields
  | .stock => stockFields
  | .customer => customerFields
  | .order => orderFields
  | .orderitem => orderitemFields
  | .payment => paymentFields

/-- Django `model._meta.get_field(name)`: `some field` or `none` when the
lookup raises `FieldDoesNotExist`. -/
def getFieldMeta (m : ModelName) (n : Str) : Option Field :=
  (fieldsOf m).find? (fun f => f.name == n)

/-- The names in `model._meta.fields` (concrete forward fields, declaration
order) — the default field list used by `_serialize_instance`. -/
def metaFieldNames (m : ModelName) : List Str :=
  ((fieldsOf m).filter (fun f => f.concrete)).map Field.name

/-- Every relation field of the schema carries a related model (sanity check
backing the `getD` used when the embedding walks `field.related_model`). -/
theorem schema_relatedModel_isSome :
    ∀ m : ModelName, ((fieldsOf m).filter (fun f => f.isRelation)).all
      (fun f => f.relatedModel.isSome) = true := by
  intro m
  cases m <;> decide

/-- A finite Python `decimal.Decimal`: sign, coefficient digits (no leading
zeros, at least the digit `0`) and decimal exponent, exactly the
`(_sign, _int, _exp)` triple the `decimal` module stores. -/
structure PyDecimal where
  neg : Bool
  digits : Str
  exp : Int
deriving DecidableEq, Repr

/-- Python values the endpoint manipulates.  `model` is a model instance
reference carrying its (UUID) primary key; `dt` carries the ISO string the
value's `isoformat()` produces; `float` carries the accepted literal (no
claim inspects binary float numerics). -/
inductive PyVal where
  | none
  | str (s : Str)
  | int (n : Int)
  | bool (b : Bool)
  | dec (d : PyDecimal)
  | dt (iso : Str)
  | uuid (hex : Str)
  | float (lit : Str)
  | model (m : ModelName) (pk : Str)
deriving DecidableEq, Repr

/-- Digit list to natural number. -/
def digitsToNat (ds : Str) : Nat :=
  ds.foldl (fun acc c => acc * 10 + (c.toNat - 48)) 0

/-- Python `int(value)` on a string: strip whitespace, optional sign, then
decimal digits (the underscore-grouped numerals Python also accepts never
appear in this API's inputs and are not modelled). -/
def pyInt (s : Str) : Option Int :=
  match strTrim s with
  | '-' :: ds => if ds ≠ [] ∧ ds.all Char.isDigit then some (-(digitsToNat ds : Int)) else none
  | '+' :: ds => if ds ≠ [] ∧ ds.all Char.isDigit then some (digitsToNat ds : Int) else none
  | ds => if ds ≠ [] ∧ ds.all Char.isDigit then some (digitsToNat ds : Int) else none

/-- Splits a float literal at the first `e`/`E`, returning the mantissa and
the exponent part when present. -/
def splitFirstExp : Str → Str × Option Str
  | [] => ([], Option.none)
  | c :: rest =>
    if c = 'e' ∨ c = 'E' then ([], some rest)
    else
      match splitFirstExp rest with
      | (m, e) => (c :: m, e)

/-- Mantissa of a Python float/decimal literal: `digits`, `digits.`,
`.digits` or `digits.digits` — at least one digit overall. -/
def mantissaOk (m : Str) : Bool :=
  match splitOnChar '.' m with
  | [i] => decide (i ≠ []) && i.all Char.isDigit
  | [i, f] => decide (i ++ f ≠ []) && (i ++ f).all Char.isDigit
  | _ => false

/-- Exponent digits with optional sign. -/
def expDigitsOk (e : Str) : Bool :=
  match e with
  | '+' :: r => decide (r ≠ []) && r.all Char.isDigit
  | '-' :: r => decide (r ≠ []) && r.all Char.isDigit
  | r => decide (r ≠ []) && r.all Char.isDigit

/-- Whether Python `float(value)` accepts the string: optional sign, then
`inf`/`infinity`/`nan` (case-insensitive) or a numeric literal with optional
exponent, all after stripping whitespace. -/
def pyFloatOk (s : Str) : Bool :=
  let t := strTrim s
  let body := match t with
    | '+' :: r => r
    | '-' :: r => r
    | r => r
  let low := strLower body
  if low = str "inf" ∨ low = str "infinity" ∨ low = str "nan" then true
  else
    match splitFirstExp body with
    | (m, Option.none) => mantissaOk m
    | (m, some e) => mantissaOk m && expDigitsOk e

/-- Strip leading zeros of a coefficient, keeping at least one digit, as the
`decimal` module normalises parsed coefficients. -/
def stripLeadZeros (ds : Str) : Str :=
  match ds.dropWhile (fun c => c = '0') with
  | [] => ['0']
  | r => r

/-- Python `decimal.Decimal(value)` on finite numeric strings: strip
whitespace, optional sign, `digits[.digits]`, optional exponent.  (The
special values `NaN`/`Infinity` the constructor also accepts cannot reach a
`DecimalField` filter in this API and are not modelled.) -/
def pyDecimalParse (s : Str) : Option PyDecimal :=
  let t := strTrim s
  let (neg, body) : Bool × Str := match t with
    | '-' :: r => (true, r)
    | '+' :: r => (false, r)
    | r => (false, r)
  let (mant, expPart) := splitFirstExp body
  let expVal : Option Int := match expPart with
    | Option.none => some 0
    | some e =>
      match e with
      | '-' :: ds => if ds ≠ [] ∧ ds.all Char.isDigit then some (-(digitsToNat ds : Int)) else Option.none
      | '+' :: ds => if ds ≠ [] ∧ ds.all Char.isDigit then some (digitsToNat ds : Int) else Option.none
      | ds => if ds ≠ [] ∧ ds.all Char.isDigit then some (digitsToNat ds : Int) else Option.none
  match expVal with
  | Option.none => Option.none
  | some e =>
    match splitOnChar '.' mant with
    | [i] =>
      if i ≠ [] ∧ i.all Char.isDigit then some ⟨neg, stripLeadZeros i, e⟩ else Option.none
    | [i, f] =>
      if i ++ f ≠ [] ∧ (i ++ f).all Char.isDigit then
        some ⟨neg, stripLeadZeros (i ++ f), e - (f.length : Int)⟩
      else Option.none
    | _ => Option.none

/-- Decimal digits of a natural number. -/
def natDigits (n : Nat) : Str := Nat.toDigits 10 n

/-- Python `'%+d' % n`: sign always printed. -/
def intSigned (n : Int) : Str :=
  if n < 0 then '-' :: natDigits n.natAbs else '+' :: natDigits n.toNat

/-- Python `str(decimal)` for finite decimals: the to-scientific-string
algorithm of `decimal.Decimal.__str__`, which preserves the stored exponent
(so `Decimal("100.00")` prints `100.00`, with its two fractional zeros). -/
def pyDecStr (d : PyDecimal) : Str :=
  let len : Int := (d.digits.length : Int)
  let leftdigits : Int := d.exp + len
  let dotplace : Int := if d.exp ≤ 0 ∧ leftdigits > -6 then leftdigits else 1
  let intpart : Str :=
    if dotplace ≤ 0 then ['0']
    else if dotplace ≥ len then d.digits ++ List.replicate (dotplace - len).toNat '0'
    else d.digits.take dotplace.toNat
  let fracpart : Str :=
    if dotplace ≤ 0 then '.' :: (List.replicate (-dotplace).toNat '0' ++ d.digits)
    else if dotplace ≥ len then []
    else '.' :: d.digits.drop dotplace.toNat
  let expPart : Str :=
    if leftdigits = dotplace then [] else 'E' :: intSigned (leftdigits - dotplace)
  (if d.neg then ['-'] else []) ++ intpart ++ fracpart ++ expPart

/-- Hexadecimal digit test. -/
def isHexDigit (c : Char) : Bool :=
  c.isDigit || ('a' ≤ c ∧ c ≤ 'f') || ('A' ≤ c ∧ c ≤ 'F')

/-- Python `uuid.UUID(value)` on the plain hex-with-dashes forms this API
receives: remove dashes, require 32 hex digits, canonicalise to lowercase
8-4-4-4-12 notation. -/
def pyUUID (s : Str) : Option Str :=
  let h := s.filter (fun c => c ≠ '-')
  if h.length = 32 ∧ h.all isHexDigit then
    let low := strLower h
    some (low.take 8 ++ '-' :: ((low.drop 8).take 4 ++ '-' ::
      (((low.drop 12).take 4) ++ '-' :: (((low.drop 16).take 4) ++ '-' :: low.drop 20))))
  else Option.none

/-- Two ASCII digits to a number, `none` if not digits. -/
def twoDigits : Char → Char → Option Nat
  | a, b => if a.isDigit ∧ b.isDigit then some ((a.toNat - 48) * 10 + (b.toNat - 48)) else Option.none

/-- Django `DateTimeField.to_python` on the `YYYY-MM-DD[ T]HH:MM[:SS]` and
`YYYY-MM-DD` shapes (a subset of the ISO forms `parse_datetime` accepts;
no claim evaluates other shapes).  Returns the `isoformat()` string of the
parsed value. -/
def dtParse (s : Str) : Option Str :=
  match s with
  | [y1, y2, y3, y4, '-', m1, m2, '-', d1, d2] =>
    match twoDigits m1 m2, twoDigits d1 d2 with
    | some mo, some da =>
      if y1.isDigit ∧ y2.isDigit ∧ y3.isDigit ∧ y4.isDigit ∧
          1 ≤ mo ∧ mo ≤ 12 ∧ 1 ≤ da ∧ da ≤ 31 then
        some ([y1, y2, y3, y4, '-', m1, m2, '-', d1, d2] ++ str "T00:00:00")
      else Option.none
    | _, _ => Option.none
  | [y1, y2, y3, y4, '-', m1, m2, '-', d1, d2, sep, h1, h2, ':', n1, n2] =>
    match twoDigits m1 m2, twoDigits d1 d2, twoDigits h1 h2, twoDigits n1 n2 with
    | some mo, some da, some ho, some mi =>
      if (sep = ' ' ∨ sep = 'T') ∧ y1.isDigit ∧ y2.isDigit ∧ y3.isDigit ∧ y4.isDigit ∧
          1 ≤ mo ∧ mo ≤ 12 ∧ 1 ≤ da ∧ da ≤ 31 ∧ ho ≤ 23 ∧ mi ≤ 59 then
        some ([y1, y2, y3, y4, '-', m1, m2, 'T', h1, h2, ':', n1, n2] ++ str ":00")
      else Option.none
    | _, _, _, _ => Option.none
  | [y1, y2, y3, y4, '-', m1, m2, '-', d1, d2, sep, h1, h2, ':', n1, n2, ':', s1, s2] =>
    match twoDigits m1 m2, twoDigits d1 d2, twoDigits h1 h2, twoDigits n1 n2, twoDigits s1 s2 with
    | some mo, some da, some ho, some mi, some se =>
      if (sep = ' ' ∨ sep = 'T') ∧ y1.isDigit ∧ y2.isDigit ∧ y3.isDigit ∧ y4.isDigit ∧
          1 ≤ mo ∧ mo ≤ 12 ∧ 1 ≤ da ∧ da ≤ 31 ∧ ho ≤ 23 ∧ mi ≤ 59 ∧ se ≤ 59 then
        some [y1, y2, y3, y4, '-', m1, m2, 'T', h1, h2, ':', n1, n2, ':', s1, s2]
      else Option.none
    | _, _, _, _, _ => Option.none
  | _ => Option.none

/-- The per-type `to_python` parser of Django fields, as called by
`_coerce_filter_value`: `some value` on success, `none` when the Django
method raises (`ValidationError`/`ValueError`/`TypeError`).

* `char` (`CharField`/`EmailField`): returns the string unchanged.
* `boolean` (`BooleanField`): accepts exactly `t`/`True`/`1` and
  `f`/`False`/`0` (case-sensitive).
* `int` (`PositiveIntegerField`): Python `int(value)`.
* `decimal` (`DecimalField`): `decimal.Decimal(value)`.
* `uuid` (`UUIDField`): `uuid.UUID(value)`.
* `datetime` (`DateTimeField`): ISO datetime/date parsing. -/
def toPython : FType → Str → Option PyVal
  | .char, v => some (.str v)
  | .boolean, v =>
    if v = str "t" ∨ v = str "True" ∨ v = str "1" then some (.bool true)
    else if v = str "f" ∨ v = str "False" ∨ v = str "0" then some (.bool false)
    else Option.none
  | .int, v => (pyInt v).map PyVal.int
  | .decimal, v => (pyDecimalParse v).map PyVal.dec
  | .uuid, v => (pyUUID v).map PyVal.uuid
  | .datetime, v => (dtParse v).map PyVal.dt

/-- The field whose `to_python` coercion uses: `field.target_field` (the
referenced primary key) for forward foreign keys, otherwise the field
itself — mirroring the `target_field` redirection in
`_coerce_filter_value`. -/
def effType (f : Field) : FType := f.targetType.getD f.ftype

/-- `RelatedQueryMixin._coerce_filter_value`: try the field's `to_python`;
on any raised error fall back to the boolean literals `true`/`false`
(after `strip().lower()`), then `int(value)`, then `float(value)`, and
finally keep the raw string.  The function is total: no input errors. -/
def coerceFilterValue (value : Str) (field : Option Field) : PyVal :=
  match field with
  | Option.none => .str value
  | some f =>
    match toPython (effType f) value with
    | some v => v
    | Option.none =>
      let lowered := strLower (strTrim value)
      if lowered = str "true" ∨ lowered = str "false" then .bool (lowered = str "true")
      else
        match pyInt value with
        | some n => .int n
        | Option.none =>
          if pyFloatOk value then .float (strTrim value) else .str value

/-- The `ValueError`s raised by `RelatedQueryMixin`, one constructor per
`raise` site (each surfaces as a DRF `ValidationError`):

* `joinsDisabled` — `_parse_joins`: join entries present but no joins
  enabled for the resource.
* `joinTooDeep` — `_build_join_spec`: path deeper than the configured max.
* `joinNotAllowed` — `_build_join_spec`: path missing from a non-empty
  whitelist.
* `unknownRelation` / `notARelation` — `_get_relation_field`.
* `emptyFilterLookup` / `invalidFilterPath` / `unresolvedLookup` —
  `_resolve_lookup`.
* `unknownField` — `_ensure_model_field_exists`.
* `missingAttribute` — an `AttributeError` escaping `getattr` on a
  relation during serialization (never reached on join-tree-consistent
  instances). -/
inductive QueryError where
  | joinsDisabled
  | joinTooDeep (entry : Str)
  | joinNotAllowed (entry : Str)
  | unknownRelation (model : Str) (name : Str)
  | notARelation (model : Str) (name : Str)
  | emptyFilterLookup
  | invalidFilterPath (model : Str) (segment : Str) (lookup : Str)
  | unresolvedLookup (lookup : Str)
  | unknownField (model : Str) (name : Str)
  | missingAttribute (name : Str)
deriving DecidableEq, Repr

/-- Decidable equality for `Except`, so that concrete runs of the embedded
parsers can be checked by `decide`. -/
instance {ε α : Type} [DecidableEq ε] [DecidableEq α] : DecidableEq (Except ε α) := fun a b =>
  match a, b with
  | .error e, .error e' =>
    if h : e = e' then .isTrue (by rw [h]) else .isFalse (fun hh => by cases hh; exact h rfl)
  | .ok x, .ok y =>
    if h : x = y then .isTrue (by rw [h]) else .isFalse (fun hh => by cases hh; exact h rfl)
  | .error _, .ok _ => .isFalse (fun hh => by cases hh)
  | .ok _, .error _ => .isFalse (fun hh => by cases hh)

/-- `RelatedQueryMixin._get_relation_field`: look the name up with
`_meta.get_field` and require it to be a relation. -/
def getRelationField (m : ModelName) (name : Str) : Except QueryError Field :=
  match getFieldMeta m name with
  | Option.none => .error (.unknownRelation (modelName m) name)
  | some f =>
    if f.isRelation then .ok f else .error (.notARelation (modelName m) name)

/-- `related_max_join_depth` (class attribute of the mixin). -/
def relatedMaxJoinDepth : Nat := 3

/-- Segment normalization of `_build_join_spec`: replace `.` by `__`, split
on `__`, drop empty segments. -/
def normSegments (entry : Str) : List Str :=
  (splitDunder (replaceDots entry)).filter (fun s => s ≠ [])

/-- `_JoinSpec`: lookup in `__` notation, its segments, and whether the
path can be loaded with `select_related` (all hops to-one). -/
structure JoinSpec where
  lookup : Str
  segments : List Str
  useSelectRelated : Bool
deriving DecidableEq, Repr

/-- The relation-walking loop of `_build_join_spec`: step through segments,
clearing the select-related flag on any `one_to_many`/`many_to_many` hop,
and return the final flag. -/
def walkJoin : ModelName → List Str → Bool → Except QueryError Bool
  | _, [], acc => .ok acc
  | m, s :: rest, acc =>
    match getRelationField m s with
    | .error e => .error e
    | .ok f => walkJoin (f.relatedModel.getD m) rest (acc && !(f.oneToMany || f.manyToMany))

/-- `RelatedQueryMixin._build_join_spec`: normalize the entry, skip it when
no segments remain, enforce the depth limit, enforce a non-empty whitelist,
then walk each segment as a relation and choose the load strategy. -/
def buildJoinSpec (entry : Str) (base : ModelName) (allowed : List (List Str)) :
    Except QueryError (Option JoinSpec) :=
  let segments := normSegments entry
  if segments.isEmpty then .ok Option.none
  else if segments.length > relatedMaxJoinDepth then .error (.joinTooDeep entry)
  else if !allowed.isEmpty && !(allowed.contains segments) then .error (.joinNotAllowed entry)
  else
    match walkJoin base segments true with
    | .error e => .error e
    | .ok useSel => .ok (some ⟨joinDunder segments, segments, useSel⟩)

/-- `RelatedQueryMixin._get_allowed_join_paths`: normalize each configured
whitelist path into its segment tuple, dropping paths with no segments.
(The Python value is a `set`; the embedding keeps a list and uses it only
through membership and emptiness, which ignore order and duplicates.) -/
def normalizedAllowed (raw : List Str) : List (List Str) :=
  (raw.map normSegments).filter (fun s => s ≠ [])

/-- The nested join tree (`defaultdict(dict)` of `_parse_joins`): children
in first-insertion order. -/
inductive JTreeS where
  | node : List (Str × JTreeS) → JTreeS
deriving Repr

/-- `dict.setdefault(k, {})` followed by an update of the entry: modify the
existing child in place, or append a fresh one at the end. -/
def assocModify (cs : List (Str × JTreeS)) (k : Str) (f : JTreeS → JTreeS) :
    List (Str × JTreeS) :=
  match cs with
  | [] => [(k, f (JTreeS.node []))]
  | (k', v) :: rest =>
    if k' = k then (k', f v) :: rest else (k', v) :: assocModify rest k f

/-- `RelatedQueryMixin._inject_join_path`: insert a segment path into the
nested join tree. -/
def JTreeS.inject (t : JTreeS) (segs : List Str) : JTreeS :=
  match segs with
  | [] => t
  | h :: tl =>
    match t with
    | JTreeS.node cs => JTreeS.node (assocModify cs h (fun sub => sub.inject tl))

/-- Python dict assignment `d[k] = v`: update in place, or append. -/
def dictUpsert {α : Type} (d : List (Str × α)) (k : Str) (v : α) : List (Str × α) :=
  match d with
  | [] => [(k, v)]
  | (k', v') :: rest =>
    if k' = k then (k, v) :: rest else (k', v') :: dictUpsert rest k v

/-- Python association lookup `k in d` / `d[k]` over an insertion-ordered
dict. -/
def dictFind {α : Type} (d : List (Str × α)) (k : Str) : Option α :=
  match d with
  | [] => Option.none
  | (k', v) :: rest => if k' = k then some v else dictFind rest k

/-- `list(dict.fromkeys(xs))`: stable deduplication keeping the first
occurrence. -/
def dedupKeep (xs : List Str) : List Str :=
  xs.foldl (fun acc x => if acc.contains x then acc else acc ++ [x]) []

/-- `_JoinParsingResult`. -/
structure JoinParsingResult where
  selectRelated : List Str
  prefetchRelated : List Str
  joinTree : JTreeS
  includedModels : List (Str × ModelName)
  appliedJoins : List Str

/-- The model-registration loop at the end of each `_parse_joins`
iteration: walk the (already validated) segments again, recording every
related model under its `model_name`. -/
def collectIncluded (base : ModelName) (segs : List Str)
    (acc : List (Str × ModelName)) : Except QueryError (List (Str × ModelName)) :=
  match segs with
  | [] => .ok acc
  | s :: rest =>
    match getRelationField base s with
    | .error e => .error e
    | .ok f =>
      let nextModel := f.relatedModel.getD base
      collectIncluded nextModel rest (dictUpsert acc (modelName nextModel) nextModel)

/-- The entries one raw `join` value contributes (`_parse_joins`, lines
212-216): its trimmed, non-empty comma pieces. -/
def entriesOfRaw (raw : Str) : List Str :=
  ((splitOnChar ',' raw).map strTrim).filter (fun s => s ≠ [])

/-- Comma-splitting and trimming of all raw `join` query parameter values
(`_parse_joins`, lines 210-216). -/
def joinEntriesOf (raws : List Str) : List Str :=
  raws.flatMap entriesOfRaw

/-- The per-entry loop of `_parse_joins`: build each spec, skip `None`
specs, route the lookup to the select-related or prefetch-related list,
grow the join tree, record the dot-notation applied join, and register the
models the path touches. -/
def processJoinEntries (base : ModelName) (allowed : List (List Str)) :
    List Str → JoinParsingResult → Except QueryError JoinParsingResult
  | [], st => .ok st
  | e :: rest, st =>
    match buildJoinSpec e base allowed with
    | .error err => .error err
    | .ok Option.none => processJoinEntries base allowed rest st
    | .ok (some spec) =>
      let st1 : JoinParsingResult :=
        { selectRelated :=
            if spec.useSelectRelated then st.selectRelated ++ [spec.lookup]
            else st.selectRelated
          prefetchRelated :=
            if spec.useSelectRelated then st.prefetchRelated
            else st.prefetchRelated ++ [spec.lookup]
          joinTree := st.joinTree.inject spec.segments
          includedModels := st.includedModels
          appliedJoins := st.appliedJoins ++ [dunderToDot spec.lookup] }
      match collectIncluded base spec.segments st1.includedModels with
      | .error err => .error err
      | .ok included =>
        processJoinEntries base allowed rest { st1 with includedModels := included }

/-- `RelatedQueryMixin._parse_joins`: split the raw `join` values into
entries, fail with `joinsDisabled` when entries exist but no whitelist
paths survive normalization, process every entry, and deduplicate the three
echo lists stably. -/
def parseJoins (base : ModelName) (allowedRaw : List Str) (raws : List Str) :
    Except QueryError JoinParsingResult :=
  let entries := joinEntriesOf raws
  let allowed := normalizedAllowed allowedRaw
  if !entries.isEmpty && allowed.isEmpty then .error .joinsDisabled
  else
    match processJoinEntries base allowed entries
        ⟨[], [], JTreeS.node [], [(modelName base, base)], []⟩ with
    | .error err => .error err
    | .ok st =>
      .ok ⟨dedupKeep st.selectRelated, dedupKeep st.prefetchRelated, st.joinTree,
        st.includedModels, dedupKeep st.appliedJoins⟩

/-- `getattr(candidate, "field", candidate)` in `_resolve_lookup`: reverse
relations expose the forward foreign key they mirror through `.field`;
every other field is returned unchanged. -/
def actualField (cand : Field) : Field :=
  match cand.accessor with
  | some (m, n) => (getFieldMeta m n).getD cand
  | Option.none => cand

/-- The segment loop of `_resolve_lookup`: walk segments through
`_meta.get_field`, remembering the last resolved (actual) field and
following relations; the first unresolvable segment after a resolved field
becomes the operator suffix, an unresolvable segment before any resolved
field is an error. -/
def resolveGo (lookup : Str) : ModelName → List Str → Option Field →
    Except QueryError (Field × Option Str)
  | _, [], found =>
    match found with
    | some f => .ok (f, Option.none)
    | Option.none => .error (.unresolvedLookup lookup)
  | m, s :: rest, found =>
    match getFieldMeta m s with
    | Option.none =>
      match found with
      | Option.none => .error (.invalidFilterPath (modelName m) s lookup)
      | some f => .ok (f, some (joinDunder (s :: rest)))
    | some cand =>
      let actual := actualField cand
      let m2 := if cand.isRelation && cand.relatedModel.isSome
        then cand.relatedModel.getD m else m
      resolveGo lookup m2 rest (some actual)

/-- `RelatedQueryMixin._resolve_lookup`: split the lookup on `__`, reject
an empty path, then resolve the segments. -/
def resolveLookup (base : ModelName) (lookup : Str) :
    Except QueryError (Field × Option Str) :=
  let segments := (splitDunder lookup).filter (fun s => s ≠ [])
  if segments.isEmpty then .error .emptyFilterLookup
  else resolveGo lookup base segments Option.none

/-- Python `key.startswith(p)`. -/
def strStartsWith (p s : Str) : Bool := p.isPrefixOf s

/-- Python `key.endswith(c)` for a one-character suffix. -/
def strEndsWith (c : Char) (s : Str) : Bool := s.getLast? == some c

/-- A produced filter predicate value: a single coerced value (equality or
named-operator predicate) or a list (membership predicate). -/
inductive FilterVal where
  | one (v : PyVal)
  | many (vs : List PyVal)
deriving DecidableEq, Repr

/-- The per-key loop of `_parse_filters`, carrying the `filters` and
`applied` dicts. -/
def parseFiltersGo (base : ModelName) :
    List (Str × List Str) → List (Str × FilterVal) → List (Str × FilterVal) →
    Except QueryError (List (Str × FilterVal) × List (Str × FilterVal))
  | [], fs, as_ => .ok (fs, as_)
  | (key, values) :: rest, fs, as_ =>
    if !(strStartsWith (str "filter[") key && strEndsWith ']' key) then
      parseFiltersGo base rest fs as_
    else
      let lookup := strTrim (replaceDots ((key.drop 7).dropLast))
      if lookup = [] then parseFiltersGo base rest fs as_
      else
        match resolveLookup base lookup with
        | .error e => .error e
        | .ok (field, op) =>
          let coerced := values.map (fun v => coerceFilterValue v (some field))
          if coerced.length > 1 ∧ op = Option.none then
            let k := lookup ++ str "__in"
            parseFiltersGo base rest (dictUpsert fs k (.many coerced))
              (dictUpsert as_ k (.many coerced))
          else if coerced.length = 1 then
            let v := coerced.headD PyVal.none
            parseFiltersGo base rest (dictUpsert fs lookup (.one v))
              (dictUpsert as_ lookup (.one v))
          else
            parseFiltersGo base rest (dictUpsert fs lookup (.many coerced))
              (dictUpsert as_ lookup (.many coerced))

/-- `RelatedQueryMixin._parse_filters` over the multi-valued query
parameters: returns the `(filters, applied)` pair of insertion-ordered
dicts. -/
def parseFilters (base : ModelName) (params : List (Str × List Str)) :
    Except QueryError (List (Str × FilterVal) × List (Str × FilterVal)) :=
  parseFiltersGo base params [] []

/-- The per-chunk loop of `_parse_ordering`: trim, honour a leading `-`,
normalize separators, validate via `_resolve_lookup` (discarding its
result), and record the signed lookup and its dot-notation echo. -/
def orderGo (base : ModelName) :
    List Str → List Str → List Str → Except QueryError (List Str × List Str)
  | [], fs, ms => .ok (fs, ms)
  | chunk :: rest, fs, ms =>
    let chunk := strTrim chunk
    if chunk = [] then orderGo base rest fs ms
    else
      let descending := strStartsWith (str "-") chunk
      let lookupRaw := if descending then chunk.drop 1 else chunk
      let lookup := strTrim (replaceDots lookupRaw)
      if lookup = [] then orderGo base rest fs ms
      else
        match resolveLookup base lookup with
        | .error e => .error e
        | .ok _ =>
          let sign : Str := if descending then ['-'] else []
          orderGo base rest (fs ++ [sign ++ lookup]) (ms ++ [sign ++ dunderToDot lookup])

/-- `RelatedQueryMixin._parse_ordering`: empty parameter yields no
ordering; otherwise process the comma-separated chunks. -/
def parseOrdering (base : ModelName) (raw : Str) :
    Except QueryError (List Str × List Str) :=
  if raw = [] then .ok ([], [])
  else orderGo base (splitOnChar ',' raw) [] []

/-- The name-collecting loop of `_parse_fields`: trim each comma item, skip
empty ones, require each name to exist on the model
(`_ensure_model_field_exists`). -/
def collectFieldNames (model : ModelName) : List Str → Except QueryError (List Str)
  | [] => .ok []
  | item :: rest =>
    let name := strTrim item
    if name = [] then collectFieldNames model rest
    else
      match getFieldMeta model name with
      | Option.none => .error (.unknownField (modelName model) name)
      | some _ =>
        match collectFieldNames model rest with
        | .error e => .error e
        | .ok names => .ok (name :: names)

/-- The per-key loop of `_parse_fields`. -/
def parseFieldsGo (included : List (Str × ModelName)) :
    List (Str × List Str) → List (Str × List Str) →
    Except QueryError (List (Str × List Str))
  | [], acc => .ok acc
  | (key, values) :: rest, acc =>
    if !(strStartsWith (str "fields[") key && strEndsWith ']' key) then
      parseFieldsGo included rest acc
    else
      let label := strLower (strTrim ((key.drop 7).dropLast))
      if label = [] then parseFieldsGo included rest acc
      else
        match dictFind included label with
        | Option.none => parseFieldsGo included rest acc
        | some model =>
          match collectFieldNames model (values.flatMap (fun v => splitOnChar ',' v)) with
          | .error e => .error e
          | .ok fields =>
            if fields = [] then parseFieldsGo included rest acc
            else parseFieldsGo included rest (dictUpsert acc label fields)

/-- `RelatedQueryMixin._parse_fields`: build the per-type field selection
map, silently ignoring keys whose bracketed type name is not among the
models touched by the request. -/
def parseFields (params : List (Str × List Str)) (included : List (Str × ModelName)) :
    Except QueryError (List (Str × List Str)) :=
  parseFieldsGo included params []

mutual

/-- A loaded model instance (request-scoped object graph): its model, the
values `getattr` yields for concrete field names, and the state of each
relation attribute (`many`: the related manager's current objects; `one`:
the related instance or absence). -/
inductive Inst where
  | mk : ModelName → List (Str × PyVal) → List (Str × RelState) → Inst

/-- State of one relation attribute on an instance. -/
inductive RelState where
  | many : List Inst → RelState
  | one : Option Inst → RelState

end

/-- Attribute mapping of an instance. -/
def Inst.attrs : Inst → List (Str × PyVal)
  | .mk _ a _ => a

/-- Relation states of an instance. -/
def Inst.rels : Inst → List (Str × RelState)
  | .mk _ _ r => r

/-- `getattr(instance, field_name, None)` for concrete attribute values. -/
def instAttr (i : Inst) (n : Str) : PyVal :=
  (dictFind i.attrs n).getD PyVal.none

/-- `getattr(instance, relation_name)` for relation attributes. -/
def instRel (i : Inst) (n : Str) : Option RelState :=
  dictFind i.rels n

/-- `RelatedQueryMixin._serialize_value`: model instances collapse to their
primary key, `Decimal` values to their exact decimal string,
date/time-like values to their ISO string; everything else passes through
unchanged. -/
def serializeValue : PyVal → PyVal
  | .model _ pk => .uuid pk
  | .dec d => .str (pyDecStr d)
  | .dt iso => .str iso
  | v => v

/-- A serialized payload value: a normalized scalar, `null`, a nested
object, or an array of nested objects. -/
inductive Out where
  | v : PyVal → Out
  | null : Out
  | obj : List (Str × Out) → Out
  | arr : List Out → Out

/-- The scalar layer of `_serialize_instance`: the explicitly selected
fields when the field map has a (non-empty) entry for the model, otherwise
every `_meta.fields` name, each serialized through `_serialize_value`. -/
def scalarLayer (inst : Inst) (m : ModelName) (fmap : List (Str × List Str)) :
    List (Str × Out) :=
  let selected :=
    match dictFind fmap (modelName m) with
    | some (f :: fs) => f :: fs
    | _ => metaFieldNames m
  selected.foldl (fun acc n => dictUpsert acc n (Out.v (serializeValue (instAttr inst n)))) []

mutual

/-- `RelatedQueryMixin._serialize_instance`: emit the scalar layer, then
walk every join-tree child relation, recursing per the subtree. -/
def serializeInstance (inst : Inst) (m : ModelName) (tree : JTreeS)
    (fmap : List (Str × List Str)) : Except QueryError (List (Str × Out)) :=
  match tree with
  | JTreeS.node children => serializeRels inst m children fmap (scalarLayer inst m fmap)
termination_by (sizeOf tree, 0)

/-- The relation loop of `_serialize_instance`: to-many relations emit an
array of recursively serialized children, to-one relations emit `null` or
one recursively serialized object. -/
def serializeRels (inst : Inst) (m : ModelName) (children : List (Str × JTreeS))
    (fmap : List (Str × List Str)) (payload : List (Str × Out)) :
    Except QueryError (List (Str × Out)) :=
  match children with
  | [] => .ok payload
  | (rel, sub) :: rest =>
    match getRelationField m rel with
    | .error e => .error e
    | .ok f =>
      if f.oneToMany || f.manyToMany then
        match instRel inst rel with
        | some (RelState.many cs) =>
          match serializeMany cs (f.relatedModel.getD m) sub fmap with
          | .error e => .error e
          | .ok outs => serializeRels inst m rest fmap (dictUpsert payload rel (Out.arr outs))
        | _ => .error (.missingAttribute rel)
      else
        match instRel inst rel with
        | some (RelState.one Option.none) =>
          serializeRels inst m rest fmap (dictUpsert payload rel Out.null)
        | some (RelState.one (some child)) =>
          match serializeInstance child (f.relatedModel.getD m) sub fmap with
          | .error e => .error e
          | .ok childPayload =>
            serializeRels inst m rest fmap (dictUpsert payload rel (Out.obj childPayload))
        | _ => .error (.missingAttribute rel)
termination_by (sizeOf children, 0)

/-- The `manager.all()` comprehension of `_serialize_instance`: serialize
every child of a to-many relation with the same subtree. -/
def serializeMany (cs : List Inst) (m : ModelName) (sub : JTreeS)
    (fmap : List (Str × List Str)) : Except QueryError (List Out) :=
  match cs with
  | [] => .ok []
  | c :: rest =>
    match serializeInstance c m sub fmap with
    | .error e => .error e
    | .ok p =>
      match serializeMany rest m sub fmap with
      | .error e => .error e
      | .ok ps => .ok (Out.obj p :: ps)
termination_by (sizeOf sub, cs.length + 1)

end

/-- `related_allowed_joins` of `OrderViewSet` in `api/core/views.py`. -/
def orderAllowedJoins : List Str :=
  [str "customer", str "payment", str "items", str "items.product",
   str "items.product.brand", str "items.product.category"]

/-- `related_allowed_joins` of `ProductViewSet` in `api/core/views.py`. -/
def productAllowedJoins : List Str :=
  [str "brand", str "category", str "stocks", str "stocks.warehouse",
   str "order_items", str "order_items.order", str "order_items.order.customer",
   str "order_items.order.payment"]

/-- To-many test of `_build_join_spec`: `one_to_many or many_to_many`. -/
def isToMany (f : Field) : Bool := f.oneToMany || f.manyToMany

/-- The relation fields traversed by a join path, hop by hop (`none` when
some segment is not a relation of the current model). -/
def chainFields : ModelName → List Str → Option (List Field)
  | _, [] => some []
  | m, s :: rest =>
    match getRelationField m s with
    | .error _ => Option.none
    | .ok f => (chainFields (f.relatedModel.getD m) rest).map (fun fs => f :: fs)

/-- Convenience accessor for a schema field in concrete statements. -/
def fieldOr (m : ModelName) (n : String) : Field :=
  (getFieldMeta m (str n)).getD { name := str n }

/-- A concrete `Product` instance, as loaded from the database: scalar
attribute values plus the two forward foreign keys, whose `getattr` yields
the related instances. -/
def prodInst : Inst :=
  .mk .product
    [ (str "id", .uuid (str "7f9c3a10-0000-0000-0000-000000000001")),
      (str "name", .str (str "Producto Test")),
      (str "sku", .str (str "SKU-001")),
      (str "price", .dec ⟨false, str "10000", -2⟩),
      (str "is_active", .bool true),
      (str "created_at", .dt (str "2024-01-01T00:00:00")),
      (str "brand", .model .brand (str "b1")),
      (str "category", .model .category (str "c1")) ]
    []

/-- The fallback chain `_coerce_filter_value` actually implements after
`to_python` fails: the boolean literals `true`/`false` (case-insensitive,
whitespace-stripped), then `int(value)`, then `float(value)`, then the raw
string — stated separately so the coercion theorem can compare the code
against it. -/
def fallbackChain (value : Str) : PyVal :=
  let lowered := strLower (strTrim value)
  if lowered = str "true" ∨ lowered = str "false" then .bool (lowered = str "true")
  else
    match pyInt value with
    | some n => .int n
    | Option.none =>
      if pyFloatOk value then .float (strTrim value) else .str value

/-- The select-related flag computed by the `_build_join_spec` loop equals
the accumulator conjoined with "no traversed hop is to-many". -/
theorem walkJoin_chainFields (segs : List Str) : ∀ (m : ModelName) (acc b : Bool),
    walkJoin m segs acc = .ok b →
    ∃ fs, chainFields m segs = some fs ∧ b = (acc && fs.all (fun f => !isToMany f)) := by
  induction segs with
  | nil =>
    intro m acc b h
    refine ⟨[], rfl, ?_⟩
    have hab : acc = b := by simpa [walkJoin] using h
    simp [hab]
  | cons s rest ih =>
    intro m acc b h
    unfold walkJoin at h
    cases hg : getRelationField m s with
    | error e =>
      simp only [hg] at h
      exact Except.noConfusion h
    | ok f =>
      simp only [hg] at h
      obtain ⟨fs, hc, hb⟩ := ih (f.relatedModel.getD m) (acc && !(f.oneToMany || f.manyToMany)) b h
      refine ⟨f :: fs, ?_, ?_⟩
      · simp [chainFields, hg, hc]
      · simp [hb, isToMany, Bool.and_assoc]

/-- Claim C1: whenever `_build_join_spec` plans a join path (all segments
resolve as relations of the root resource type), the planned strategy is
collection-traversal (`use_select_related = false`) exactly when some hop
in the chain is to-many, and single-valued-traversal exactly when every hop
is to-one — for a to-many hop at any position, not only the last. -/
theorem joinStrategy_matches_cardinalities (entry : Str) (base : ModelName)
    (allowed : List (List Str)) (spec : JoinSpec) (fs : List Field)
    (h : buildJoinSpec entry base allowed = .ok (some spec))
    (hc : chainFields base spec.segments = some fs) :
    spec.useSelectRelated = fs.all (fun f => !isToMany f) := by
  simp only [buildJoinSpec] at h
  split at h
  · simp at h
  · split at h
    · simp at h
    · split at h
      · simp at h
      · cases hw : walkJoin base (normSegments entry) true with
        | error e =>
          simp only [hw] at h
          exact Except.noConfusion h
        | ok useSel =>
          simp only [hw] at h
          have hspec : spec = ⟨joinDunder (normSegments entry), normSegments entry, useSel⟩ :=
            (Option.some.inj (Except.ok.inj h)).symm
          subst hspec
          obtain ⟨fs2, hc2, hb⟩ := walkJoin_chainFields (normSegments entry) base true useSel hw
          simp only at hc
          rw [hc2] at hc
          cases hc
          simpa using hb

/-- Witness for C1 at the `OrderViewSet` path `items.product`: the first
hop `items` is to-many (a to-many hop in non-final position), so the
planned strategy is collection-traversal. -/
theorem joinStrategy_matches_cardinalities_witness :
    buildJoinSpec (str "items.product") .order (normalizedAllowed orderAllowedJoins) =
      .ok (some ⟨str "items__product", [str "items", str "product"], false⟩) ∧
    chainFields .order [str "items", str "product"] =
      some [fieldOr .order "items", fieldOr .orderitem "product"] ∧
    (false : Bool) = ([fieldOr .order "items", fieldOr .orderitem "product"].all
      (fun f => !isToMany f)) :=
  ⟨by decide, by decide,
    joinStrategy_matches_cardinalities (str "items.product") .order
      (normalizedAllowed orderAllowedJoins)
      ⟨str "items__product", [str "items", str "product"], false⟩
      [fieldOr .order "items", fieldOr .orderitem "product"] (by decide) (by decide)⟩

/-- Claim C2 counterexample: on a resource whose normalized whitelist is
empty (the mixin default `related_allowed_joins = ()`), a join entry with
four segments — deeper than the maximum of three — fails with the
joins-disabled error, not the depth error the claim promises for every
whitelist state. -/
theorem joinTooDeep_counterexample :
    parseJoins .brand [] [str "a__b__c__d"] = .error .joinsDisabled ∧
    QueryError.joinsDisabled ≠ QueryError.joinTooDeep (str "a__b__c__d") :=
  ⟨rfl, by decide⟩

/-- Claim C2 (amended): a join entry whose segment count exceeds the
configured maximum depth is rejected by `_build_join_spec` with the
depth error whatever the whitelist contents, and the request as a whole
fails with that error whenever the resource's normalized whitelist is
non-empty; with an empty whitelist the request fails earlier with
`joinsDisabled`. -/
theorem joinTooDeep_regardless_of_whitelist (entry : Str) (base : ModelName)
    (allowedRaw : List Str)
    (hdeep : (normSegments entry).length > relatedMaxJoinDepth)
    (hne : normalizedAllowed allowedRaw ≠ [])
    (hent : joinEntriesOf [entry] = [entry]) :
    parseJoins base allowedRaw [entry] = .error (.joinTooDeep entry) ∧
    ∀ allowed2 : List (List Str), buildJoinSpec entry base allowed2 =
      .error (.joinTooDeep entry) := by
  have hbuild : ∀ allowed2 : List (List Str),
      buildJoinSpec entry base allowed2 = .error (.joinTooDeep entry) := by
    intro allowed2
    have hnonempty : (normSegments entry).isEmpty = false := by
      cases hs : normSegments entry with
      | nil => rw [hs] at hdeep; simp [relatedMaxJoinDepth] at hdeep
      | cons a as => simp
    simp [buildJoinSpec, hnonempty, hdeep]
  refine ⟨?_, hbuild⟩
  have hgate : (!(joinEntriesOf [entry]).isEmpty && (normalizedAllowed allowedRaw).isEmpty)
      = false := by
    cases ha : normalizedAllowed allowedRaw with
    | nil => exact absurd ha hne
    | cons p ps => simp
  simp only [parseJoins, hgate, if_neg (by simp : ¬(false = true)), hent]
  simp [processJoinEntries, hbuild, hne]

/-- Witness for C2 (amended) at a four-hop entry on the order resource:
with the order whitelist the request fails with the depth error, and the
join-spec builder rejects it even against an empty whitelist. -/
theorem joinTooDeep_regardless_of_whitelist_witness :
    parseJoins .order orderAllowedJoins [str "a.b.c.d"] =
      .error (.joinTooDeep (str "a.b.c.d")) ∧
    buildJoinSpec (str "a.b.c.d") .order [] = .error (.joinTooDeep (str "a.b.c.d")) :=
  ⟨(joinTooDeep_regardless_of_whitelist (str "a.b.c.d") .order orderAllowedJoins
      (by decide) (by decide) (by decide)).1,
   (joinTooDeep_regardless_of_whitelist (str "a.b.c.d") .order orderAllowedJoins
      (by decide) (by decide) (by decide)).2 []⟩

/-- Claim C3 counterexample: the integer parser of `Stock.qty` rejects the
value `yes`, and the fallback keeps it as the raw string `yes` rather than
producing the boolean the claim's `true/false/yes/no/on/off` literal list
promises (the code's fallback checks only `true` and `false`; the
`yes/no/on/off` set belongs to `_parse_distinct`, not to
`_coerce_filter_value`). -/
theorem coercion_boolean_literals_counterexample :
    coerceFilterValue (str "yes") (some (fieldOr .stock "qty")) = PyVal.str (str "yes") ∧
    PyVal.str (str "yes") ≠ PyVal.bool true ∧
    PyVal.str (str "yes") ≠ PyVal.bool false :=
  ⟨by decide, by decide, by decide⟩

/-- Claim C3 (amended): when the terminal attribute's type-specific parser
rejects a filter value, coercion falls back, in order, to the boolean
literals `true`/`false` only (case-insensitive, whitespace-stripped), then
integer parsing, then floating-point parsing, and otherwise keeps the raw
string; the fallback never raises an error (the embedded coercion is a
total function). -/
theorem coercion_fallback_chain (value : Str) (f : Field)
    (h : toPython (effType f) value = Option.none) :
    coerceFilterValue value (some f) = fallbackChain value := by
  simp only [coerceFilterValue, h, fallbackChain]

/-- Witness for C3 (amended): the integer parser of `Stock.qty` rejects
`abc`, and the coercion result is exactly the fallback chain's value (here
the raw string). -/
theorem coercion_fallback_chain_witness :
    coerceFilterValue (str "abc") (some (fieldOr .stock "qty")) = fallbackChain (str "abc") :=
  coercion_fallback_chain (str "abc") (fieldOr .stock "qty") (by decide)

/-- Claim C4 counterexample: the ordering chunk `status__icontains` on the
order resource has a terminal segment that is not an attribute — the
resolver classifies `icontains` as an operator suffix — yet
`_parse_ordering` accepts the chunk and passes it through instead of
rejecting it as a validation error (it calls `_resolve_lookup` and
discards the returned operator). -/
theorem ordering_rejects_suffix_counterexample :
    parseOrdering .order (str "status__icontains") =
      .ok ([str "status__icontains"], [str "status.icontains"]) ∧
    resolveLookup .order (str "status__icontains") =
      .ok (fieldOr .order "status", some (str "icontains")) :=
  ⟨by decide, by decide⟩

/-- Claim C4 (amended): an ordering chunk's path (after stripping an
optional leading `-`) is validated exactly like a filter path: the chunk is
rejected with a validation error precisely when `_resolve_lookup` fails on
it (its leading segment resolves to no attribute), while a path whose
resolution succeeds is accepted and echoed even when it carries a trailing
operator-like suffix that is not itself an attribute. -/
theorem ordering_validated_like_filter_path (base : ModelName) (raw : Str)
    (hne : raw ≠ [])
    (hsplit : splitOnChar ',' raw = [raw])
    (htrim : strTrim raw = raw)
    (hdash : strStartsWith (str "-") raw = false)
    (hnorm : replaceDots raw = raw) :
    (∀ f op, resolveLookup base raw = .ok (f, op) →
      parseOrdering base raw = .ok ([raw], [dunderToDot raw])) ∧
    (∀ e, resolveLookup base raw = .error e → parseOrdering base raw = .error e) := by
  constructor
  · intro f op hres
    simp only [parseOrdering, if_neg hne, hsplit, orderGo, htrim, hdash, hnorm]
    simp [htrim, hnorm, hne, hres, orderGo]
  · intro e hres
    simp only [parseOrdering, if_neg hne, hsplit, orderGo, htrim, hdash, hnorm]
    simp [htrim, hnorm, hne, hres]

/-- Witness for C4 (amended), both directions: on the order resource the
suffix-carrying chunk `customer__icontains` resolves (with `icontains` as
operator) and is accepted, while the unresolvable chunk `bogus` makes the
request fail with the resolver's error. -/
theorem ordering_validated_like_filter_path_witness :
    parseOrdering .order (str "customer__icontains") =
      .ok ([str "customer__icontains"], [str "customer.icontains"]) ∧
    parseOrdering .order (str "bogus") =
      .error (.invalidFilterPath (str "order") (str "bogus") (str "bogus")) :=
  ⟨(ordering_validated_like_filter_path .order (str "customer__icontains")
      (by decide) (by decide) (by decide) (by decide) (by decide)).1
      (fieldOr .order "customer") (some (str "icontains")) (by decide),
   (ordering_validated_like_filter_path .order (str "bogus")
      (by decide) (by decide) (by decide) (by decide) (by decide)).2
      (.invalidFilterPath (str "order") (str "bogus") (str "bogus")) (by decide)⟩

/-- Claim C5: for a valid filter key with no operator suffix, supplying
N>1 values produces a membership predicate (`lookup__in`) over all N
coerced values, echoed in the applied-filters metadata in the original
value order, while supplying exactly one value produces an equality
predicate echoing that single coerced value. -/
theorem filter_membership_vs_equality (base : ModelName) (key lookup : Str)
    (f : Field) (vs : List Str)
    (h1 : strStartsWith (str "filter[") key = true)
    (h2 : strEndsWith ']' key = true)
    (hlu : strTrim (replaceDots ((key.drop 7).dropLast)) = lookup)
    (hne : lookup ≠ [])
    (hres : resolveLookup base lookup = .ok (f, Option.none)) :
    (vs.length > 1 →
      parseFilters base [(key, vs)] =
        .ok ([(lookup ++ str "__in",
                .many (vs.map (fun v => coerceFilterValue v (some f))))],
             [(lookup ++ str "__in",
                .many (vs.map (fun v => coerceFilterValue v (some f))))])) ∧
    (∀ v, vs = [v] →
      parseFilters base [(key, vs)] =
        .ok ([(lookup, .one (coerceFilterValue v (some f)))],
             [(lookup, .one (coerceFilterValue v (some f)))])) := by
  constructor
  · intro hlen
    simp only [parseFilters, parseFiltersGo, h1, h2, hlu, if_neg hne, hres]
    simp only [Bool.and_self, Bool.not_true, Bool.false_eq_true, if_false]
    rw [if_pos ⟨by simpa using hlen, trivial⟩]
    simp [parseFiltersGo, dictUpsert]
  · intro v hv
    subst hv
    simp only [parseFilters, parseFiltersGo, h1, h2, hlu, if_neg hne, hres]
    simp [parseFiltersGo, dictUpsert]

/-- Witness for C5 on `filter[name]` against the product resource: two
values yield the in-list predicate over both coerced values in order; one
value yields the equality predicate. -/
theorem filter_membership_vs_equality_witness :
    parseFilters .product [(str "filter[name]", [str "a", str "b"])] =
      .ok ([(str "name__in", .many [.str (str "a"), .str (str "b")])],
           [(str "name__in", .many [.str (str "a"), .str (str "b")])]) ∧
    parseFilters .product [(str "filter[name]", [str "a"])] =
      .ok ([(str "name", .one (.str (str "a")))],
           [(str "name", .one (.str (str "a")))]) :=
  ⟨(filter_membership_vs_equality .product (str "filter[name]") (str "name")
      (fieldOr .product "name") [str "a", str "b"]
      (by decide) (by decide) (by decide) (by decide) (by decide)).1 (by decide),
   (filter_membership_vs_equality .product (str "filter[name]") (str "name")
      (fieldOr .product "name") [str "a"]
      (by decide) (by decide) (by decide) (by decide) (by decide)).2 (str "a") rfl⟩

/-- Python dict assignment with a fresh key appends at the end. -/
theorem dictUpsert_append {α : Type} (d : List (Str × α)) (k : Str) (v : α)
    (h : k ∉ d.map Prod.fst) : dictUpsert d k v = d ++ [(k, v)] := by
  induction d with
  | nil => rfl
  | cons p rest ih =>
    obtain ⟨k', v'⟩ := p
    simp only [List.map_cons, List.mem_cons] at h
    push_neg at h
    simp only [dictUpsert, if_neg (fun hh : k' = k => h.1 hh.symm)]
    rw [ih h.2]
    simp

/-- Writing pairwise-distinct fresh keys into a dict in order yields
exactly those keys, appended after the existing ones. -/
theorem foldUpsert_keys {α : Type} (f : Str → α) :
    ∀ (names : List Str) (acc : List (Str × α)), names.Nodup →
    (∀ n ∈ names, n ∉ acc.map Prod.fst) →
    ((names.foldl (fun acc n => dictUpsert acc n (f n)) acc).map Prod.fst) =
      acc.map Prod.fst ++ names := by
  intro names
  induction names with
  | nil => intro acc _ _; simp
  | cons n rest ih =>
    intro acc hnd hdisj
    obtain ⟨hn, hrest⟩ := List.nodup_cons.mp hnd
    simp only [List.foldl_cons]
    rw [ih (dictUpsert acc n (f n)) hrest ?_]
    · rw [dictUpsert_append acc n (f n) (hdisj n (by simp))]
      simp
    · intro m hm
      rw [dictUpsert_append acc n (f n) (hdisj n (by simp))]
      simp only [List.map_append, List.mem_append, List.map_cons, List.map_nil,
        List.mem_singleton]
      rintro (hacc | hn2)
      · exact hdisj m (by simp [hm]) hacc
      · exact hn (hn2 ▸ hm)

/-- Claim C6 (amended): a serialized instance whose resource type has no
entry in the field selection map emits exactly the type's `_meta.fields`
names — its scalar attributes plus its forward to-one foreign keys
(collapsed to the related primary key) — while reverse and many-to-many
relations are absent and nested relation objects appear only for join-tree
keys (here: the empty join tree adds nothing). -/
theorem serializeDefault_concrete_fields (inst : Inst) (m : ModelName)
    (fmap : List (Str × List Str))
    (h : dictFind fmap (modelName m) = Option.none) :
    serializeInstance inst m (JTreeS.node []) fmap = .ok (scalarLayer inst m fmap) ∧
    (scalarLayer inst m fmap).map Prod.fst = metaFieldNames m := by
  constructor
  · simp [serializeInstance, serializeRels]
  · simp only [scalarLayer, h]
    have hnd : (metaFieldNames m).Nodup := by cases m <;> decide
    have hkeys := foldUpsert_keys (fun n => Out.v (serializeValue (instAttr inst n)))
      (metaFieldNames m) [] hnd (by simp)
    simpa using hkeys

/-- Witness for C6 (amended) on a concrete product instance with no field
selection: the emitted keys are exactly `_meta.fields` of `Product`. -/
theorem serializeDefault_concrete_fields_witness :
    serializeInstance prodInst .product (JTreeS.node []) [] =
      .ok (scalarLayer prodInst .product []) ∧
    (scalarLayer prodInst .product []).map Prod.fst = metaFieldNames .product :=
  serializeDefault_concrete_fields prodInst .product [] rfl

/-- Claim C6 counterexample: with no field selection and an empty join
tree, the serialized product layer contains the keys `brand` and
`category` — declared *relation* attributes (forward foreign keys,
emitted as the related primary key) — so the default layer is not limited
to scalar attributes as the claim states. -/
theorem serialize_includes_relation_counterexample :
    (scalarLayer prodInst .product []).map Prod.fst =
      [str "id", str "name", str "sku", str "price", str "is_active", str "created_at",
       str "brand", str "category"] ∧
    dictFind (scalarLayer prodInst .product []) (str "brand") =
      some (Out.v (.uuid (str "b1"))) ∧
    (fieldOr .product "brand").isRelation = true ∧
    serializeInstance prodInst .product (JTreeS.node []) [] =
      .ok (scalarLayer prodInst .product []) :=
  ⟨by decide, rfl, by decide, by simp [serializeInstance, serializeRels]⟩

/-- Claim C7: on a resource whose join whitelist is empty, any request
whose `join` parameter carries at least one (non-empty) join entry fails
with the joins-disabled error, while a request with no `join` parameter
succeeds with an empty applied-joins list (and an otherwise empty join
plan). -/
theorem emptyWhitelist_joinsDisabled (base : ModelName) (allowedRaw raws : List Str)
    (hempty : normalizedAllowed allowedRaw = []) :
    (joinEntriesOf raws ≠ [] → parseJoins base allowedRaw raws = .error .joinsDisabled) ∧
    parseJoins base allowedRaw [] =
      .ok ⟨[], [], JTreeS.node [], [(modelName base, base)], []⟩ := by
  constructor
  · intro hne
    have hgate : (!(joinEntriesOf raws).isEmpty &&
        (normalizedAllowed allowedRaw).isEmpty) = true := by
      cases he : joinEntriesOf raws with
      | nil => exact absurd he hne
      | cons e es => simp [hempty]
    simp [parseJoins, hgate]
  · rfl

/-- Witness for C7 with the mixin default whitelist `()` on the brand
resource: `join=products` fails with joins-disabled, no `join` parameter
succeeds with the empty plan. -/
theorem emptyWhitelist_joinsDisabled_witness :
    parseJoins .brand [] [str "products"] = .error .joinsDisabled ∧
    parseJoins .brand [] [] =
      .ok ⟨[], [], JTreeS.node [], [(str "brand", .brand)], []⟩ :=
  ⟨(emptyWhitelist_joinsDisabled .brand [] [str "products"] rfl).1 (by decide),
   (emptyWhitelist_joinsDisabled .brand [] [] rfl).2⟩

/-- Claim C8: serializing any `Decimal` value emits exactly its decimal
string representation (a string, never a binary-float-rounded number); in
particular the decimal stored for the literal `100.00` serializes as the
string `100.00`, not `100.0` or `100`. -/
theorem decimal_serializes_as_exact_string :
    (∀ d : PyDecimal, serializeValue (PyVal.dec d) = PyVal.str (pyDecStr d)) ∧
    pyDecimalParse (str "100.00") = some ⟨false, str "10000", -2⟩ ∧
    pyDecStr ⟨false, str "10000", -2⟩ = str "100.00" ∧
    pyDecStr ⟨false, str "10000", -2⟩ ≠ str "100.0" ∧
    pyDecStr ⟨false, str "10000", -2⟩ ≠ str "100" :=
  ⟨fun _ => rfl, by decide, by decide, by decide, by decide⟩

/-- The `_parse_fields` loop processes a concatenation by processing the
first part and feeding its accumulated map into the second. -/
theorem parseFieldsGo_append (included : List (Str × ModelName))
    (ys : List (Str × List Str)) :
    ∀ (xs : List (Str × List Str)) (acc : List (Str × List Str)),
    parseFieldsGo included (xs ++ ys) acc =
      match parseFieldsGo included xs acc with
      | .error e => .error e
      | .ok acc2 => parseFieldsGo included ys acc2 := by
  intro xs
  induction xs with
  | nil => intro acc; simp [parseFieldsGo]
  | cons p rest ih =>
    intro acc
    obtain ⟨key, values⟩ := p
    simp only [List.cons_append, parseFieldsGo]
    split
    · exact ih acc
    · split
      · exact ih acc
      · split
        · exact ih acc
        · split
          · rfl
          · split
            · exact ih acc
            · exact ih _

/-- A `fields[...]` key whose bracketed label is not among the included
models is skipped without touching the state. -/
theorem parseFieldsGo_skip (included : List (Str × ModelName)) (key : Str)
    (vs : List Str) (ps acc : List (Str × List Str))
    (h1 : strStartsWith (str "fields[") key = true)
    (h2 : strEndsWith ']' key = true)
    (h3 : dictFind included (strLower (strTrim ((key.drop 7).dropLast))) = Option.none) :
    parseFieldsGo included ((key, vs) :: ps) acc = parseFieldsGo included ps acc := by
  simp only [parseFieldsGo, h1, h2, Bool.and_self, Bool.not_true, Bool.false_eq_true,
    if_false, h3]
  split <;> rfl

/-- Claim C9: a `fields[<type-name>]` parameter whose bracketed type name
is not a model touched by the request is ignored with no error and
contributes nothing to the field selection map, even when the attribute
names it lists exist on no resource type — removing the parameter leaves
`_parse_fields` unchanged, so its attribute validation is skipped
entirely. -/
theorem unknownType_fields_ignored (included : List (Str × ModelName)) (key : Str)
    (vs : List Str) (ps1 ps2 : List (Str × List Str))
    (h1 : strStartsWith (str "fields[") key = true)
    (h2 : strEndsWith ']' key = true)
    (h3 : dictFind included (strLower (strTrim ((key.drop 7).dropLast))) = Option.none) :
    parseFields (ps1 ++ (key, vs) :: ps2) included = parseFields (ps1 ++ ps2) included := by
  simp only [parseFields]
  rw [parseFieldsGo_append included ((key, vs) :: ps2) ps1 [],
    parseFieldsGo_append included ps2 ps1 []]
  cases parseFieldsGo included ps1 [] with
  | error e => rfl
  | ok acc2 => exact parseFieldsGo_skip included key vs ps2 acc2 h1 h2 h3

/-- Witness for C9: with only the order model included,
`fields[banana]=not_a_field` is dropped exactly as if absent — and in
particular produces no error though `not_a_field` exists nowhere. -/
theorem unknownType_fields_ignored_witness :
    parseFields [(str "fields[banana]", [str "not_a_field"])] [(str "order", .order)] =
      parseFields [] [(str "order", .order)] ∧
    parseFields [] [(str "order", .order)] = .ok [] :=
  ⟨unknownType_fields_ignored [(str "order", .order)] (str "fields[banana]")
    [str "not_a_field"] [] [] (by decide) (by decide) (by decide), rfl⟩

/-- Join entries of concatenated raw values decompose into concatenated
entries. -/
theorem joinEntriesOf_append (xs ys : List Str) :
    joinEntriesOf (xs ++ ys) = joinEntriesOf xs ++ joinEntriesOf ys := by
  simp [joinEntriesOf]

/-- The `_parse_joins` loop processes a concatenation by processing the
first part and feeding its state into the second. -/
theorem processJoinEntries_append (base : ModelName) (allowed : List (List Str))
    (ys : List Str) : ∀ (xs : List Str) (st : JoinParsingResult),
    processJoinEntries base allowed (xs ++ ys) st =
      match processJoinEntries base allowed xs st with
      | .error e => .error e
      | .ok st2 => processJoinEntries base allowed ys st2 := by
  intro xs
  induction xs with
  | nil => intro st; simp [processJoinEntries]
  | cons e rest ih =>
    intro st
    simp only [List.cons_append, processJoinEntries]
    split
    · rfl
    · exact ih st
    · split
      · rfl
      · exact ih _

/-- Entries that build no join spec are processed without changing the
state. -/
theorem processJoinEntries_skipNone (base : ModelName) (allowed : List (List Str)) :
    ∀ (es : List Str) (st : JoinParsingResult),
    (∀ e ∈ es, buildJoinSpec e base allowed = .ok Option.none) →
    processJoinEntries base allowed es st = .ok st := by
  intro es
  induction es with
  | nil => intro st _; rfl
  | cons e rest ih =>
    intro st hall
    have he := hall e (by simp)
    simp only [processJoinEntries, he]
    exact ih st (fun x hx => hall x (by simp [hx]))

/-- An entry that normalizes to no segments is skipped by
`_build_join_spec`. -/
theorem buildJoinSpec_emptySegments (e : Str) (base : ModelName)
    (allowed : List (List Str)) (h : normSegments e = []) :
    buildJoinSpec e base allowed = .ok Option.none := by
  simp [buildJoinSpec, h]

/-- Claim C10: a raw `join` value every comma piece of which normalizes to
zero non-empty segments (only separators, whitespace or commas) is
silently skipped: provided the whitelist gate for non-empty entries does
not already fail the request (the normalized whitelist is non-empty, or
the value yields no entries at all), removing the value leaves the entire
join-parsing result — strategy lists, join tree, applied-joins metadata —
unchanged, with no error raised. -/
theorem emptySegment_joins_skipped (base : ModelName) (allowedRaw rs1 rs2 : List Str)
    (s : Str)
    (hskip : ∀ item ∈ entriesOfRaw s, normSegments item = [])
    (hgate : normalizedAllowed allowedRaw ≠ [] ∨ entriesOfRaw s = []) :
    parseJoins base allowedRaw (rs1 ++ s :: rs2) = parseJoins base allowedRaw (rs1 ++ rs2) := by
  have hdecomp : joinEntriesOf (rs1 ++ s :: rs2) =
      joinEntriesOf rs1 ++ (entriesOfRaw s ++ joinEntriesOf rs2) := by
    rw [joinEntriesOf_append]
    simp [joinEntriesOf]
  have hdecomp2 : joinEntriesOf (rs1 ++ rs2) = joinEntriesOf rs1 ++ joinEntriesOf rs2 :=
    joinEntriesOf_append rs1 rs2
  rcases hgate with hne | hempty
  · have hga : (normalizedAllowed allowedRaw).isEmpty = false := by
      cases h : normalizedAllowed allowedRaw with
      | nil => exact absurd h hne
      | cons p ps => simp
    simp only [parseJoins, hdecomp, hdecomp2, hga, Bool.and_false, Bool.false_eq_true,
      if_false]
    rw [processJoinEntries_append base (normalizedAllowed allowedRaw)
        (entriesOfRaw s ++ joinEntriesOf rs2) (joinEntriesOf rs1),
      processJoinEntries_append base (normalizedAllowed allowedRaw)
        (joinEntriesOf rs2) (joinEntriesOf rs1)]
    have hmid : ∀ st' : JoinParsingResult,
        processJoinEntries base (normalizedAllowed allowedRaw)
          (entriesOfRaw s ++ joinEntriesOf rs2) st' =
        processJoinEntries base (normalizedAllowed allowedRaw) (joinEntriesOf rs2) st' := by
      intro st'
      rw [processJoinEntries_append base (normalizedAllowed allowedRaw)
          (joinEntriesOf rs2) (entriesOfRaw s),
        processJoinEntries_skipNone base (normalizedAllowed allowedRaw) (entriesOfRaw s) st'
          (fun e he => buildJoinSpec_emptySegments e base (normalizedAllowed allowedRaw)
            (hskip e he))]
    simp only [hmid]
  · simp only [parseJoins, hdecomp, hdecomp2, hempty, List.nil_append]

/-- Witness for C10 on the order resource: inserting the raw value
`". ,  ,__"` (whose pieces normalize to zero segments) after
`join=customer` changes nothing. -/
theorem emptySegment_joins_skipped_witness :
    parseJoins .order orderAllowedJoins [str "customer", str ". ,  ,__"] =
      parseJoins .order orderAllowedJoins [str "customer"] :=
  emptySegment_joins_skipped .order orderAllowedJoins [str "customer"] [] (str ". ,  ,__")
    (by decide) (.inl (by decide))

end Core
